import Mathlib

/-
Verification of the maker state machine, the swap orchestration protocols,
the Ethereum chain watcher and the Ethereum wallet of this repository.

Amounts are embedded as natural numbers (satoshi for bitcoin, attodai for
dai); rates are exact rationals.  Fallible operations return `Except`,
mutation of `&mut self` is explicit state passing, and a checked-arithmetic
panic is `Option.none`.
-/

namespace Comit

/-! ## Maker domain model (src/src/maker.rs and its value types) -/

/-- Position of an order from the maker's perspective: whether the maker
buys or sells the base asset (BTC). Translated from order.rs via the spec. -/
inductive Position
  | buy
  | sell
deriving DecidableEq, Repr

/-- Asset symbols used in error values. -/
inductive Symbol
  | btc
  | dai
deriving DecidableEq, Repr

/-- Modelled from the spec: a BTC/DAI order, `{position, base: BtcAsset,
quote: DaiAsset}` (order.rs is not part of the sources). Base amount in
satoshi, quote amount in attodai. -/
structure BtcDaiOrder where
  position : Position
  base : ℕ
  quote : ℕ
deriving DecidableEq, Repr

/-- A taken order from the network: the inner order plus the taker's peer
id (network.rs is not part of the sources; the spec gives
`TakenOrder{inner: BtcDaiOrder, taker: PeerId}`). Peer ids are embedded
as naturals. -/
structure Order where
  inner : BtcDaiOrder
  taker : ℕ
deriving DecidableEq, Repr

/-- Modelled from the spec: the mid market rate, a wrapper around an exact
rational DAI-per-BTC rate. Equality of two mid market rates (used by
`update_rate`) is equality of the rates, matching the repository test
`no_rate_change_if_rate_update_with_same_value`. -/
structure MidMarketRate where
  rate : ℚ
deriving DecidableEq, Repr

/-- Modelled from the spec: a spread in basis points. -/
structure Spread where
  bps : ℕ
deriving DecidableEq, Repr

/-- Modelled from the spec: `spread.apply(mid, Buy) = mid × (1 − s)` and
`spread.apply(mid, Sell) = mid × (1 + s)` where `s = spread_bps / 10000`,
computed on exact rationals (rate.rs is not part of the sources). -/
def Spread.apply (s : Spread) (rate : ℚ) (position : Position) : ℚ :=
  match position with
  | .buy => rate * (1 - (s.bps : ℚ) / 10000)
  | .sell => rate * (1 + (s.bps : ℚ) / 10000)

/-- Modelled from the spec: the rate of an order, `quote.amount /
base.amount` as an exact rational (the `Rate::try_from(order)` conversion
of order.rs is not part of the sources). Division by a zero base yields
the rational zero, which keeps the conversion total; the repository test
`cannot_trade_with_taker_if_ongoing_swap_already_exists` feeds a
zero-base, zero-quote default order through `process_taken_order` and
expects success, so the conversion cannot fail on a zero base. -/
def orderRate (o : BtcDaiOrder) : ℚ :=
  (o.quote : ℚ) / (o.base : ℚ)

/-- Errors of the maker (maker.rs): `RateNotAvailable(Position)` and
`BalanceNotAvailable(Symbol)`. -/
inductive MakerError
  | rateNotAvailable (p : Position)
  | balanceNotAvailable (s : Symbol)
deriving DecidableEq, Repr

/-- Decision returned by `process_taken_order` (maker.rs). -/
inductive TakeRequestDecision
  | goForSwap
  | rateNotProfitable
  | insufficientFunds
  | cannotTradeWithTaker
deriving DecidableEq, Repr

/-- Argument of `process_finished_swap` (maker.rs): which reserved pool to
free and by how much. -/
inductive Free
  | dai (amount : ℕ)
  | btc (amount : ℕ)
deriving DecidableEq, Repr

/-- The maker state (maker.rs, struct `Maker`). `ongoing_takers` is the
set of peers with an ongoing trade, embedded as a list of peer ids. -/
structure Maker where
  btc_balance : Option ℕ
  dai_balance : Option ℕ
  btc_fee : ℕ
  btc_reserved_funds : ℕ
  dai_reserved_funds : ℕ
  btc_max_sell_amount : Option ℕ
  dai_max_sell_amount : Option ℕ
  mid_market_rate : Option MidMarketRate
  spread : Spread
  ongoing_takers : List ℕ
deriving DecidableEq, Repr

/-- Constructor `Maker::new` (maker.rs): both balances and the rate are
present, reserved funds and the ongoing-taker set are empty. -/
def Maker.new (btc_balance dai_balance btc_fee : ℕ)
    (btc_max_sell_amount dai_max_sell_amount : Option ℕ)
    (mid_market_rate : MidMarketRate) (spread : Spread) : Maker where
  btc_balance := some btc_balance
  dai_balance := some dai_balance
  btc_fee := btc_fee
  btc_reserved_funds := 0
  dai_reserved_funds := 0
  btc_max_sell_amount := btc_max_sell_amount
  dai_max_sell_amount := dai_max_sell_amount
  mid_market_rate := some mid_market_rate
  spread := spread
  ongoing_takers := []

/-- Modelled from the spec: `BtcDaiOrder::new_sell` (order.rs is not part
of the sources) computes the maximal sell order honouring the cap and the
reserved funds, priced at `spread.apply(mid_market_rate, Sell)`. -/
def BtcDaiOrder.new_sell (btc_balance btc_fee btc_reserved : ℕ)
    (max_amount : Option ℕ) (mid : ℚ) (s : Spread) : BtcDaiOrder :=
  let available := btc_balance - btc_reserved - btc_fee
  let base := match max_amount with
    | some m => min m available
    | none => available
  { position := .sell
    base := base
    quote := (⌊s.apply mid .sell * (base : ℚ)⌋).toNat }

/-- Modelled from the spec: `BtcDaiOrder::new_buy` (order.rs is not part
of the sources), the buy-side counterpart of `new_sell` (no fee on the
dai side). -/
def BtcDaiOrder.new_buy (dai_balance dai_reserved : ℕ)
    (max_amount : Option ℕ) (mid : ℚ) (s : Spread) : BtcDaiOrder :=
  let available := dai_balance - dai_reserved
  let quoteAmount : ℕ := match max_amount with
    | some m => min m available
    | none => available
  { position := .buy
    base := (⌊(quoteAmount : ℚ) / s.apply mid .buy⌋).toNat
    quote := quoteAmount }

/-- Function `Maker::new_sell_order` (maker.rs): requires the rate and the
btc balance, checking the rate first. -/
def Maker.new_sell_order (m : Maker) : Except MakerError BtcDaiOrder :=
  match m.mid_market_rate, m.btc_balance with
  | some mid_market_rate, some btc_balance =>
      .ok (BtcDaiOrder.new_sell btc_balance m.btc_fee m.btc_reserved_funds
        m.btc_max_sell_amount mid_market_rate.rate m.spread)
  | none, _ => .error (.rateNotAvailable .sell)
  | some _, none => .error (.balanceNotAvailable .btc)

/-- Function `Maker::new_buy_order` (maker.rs): requires the rate and the
dai balance, checking the rate first. -/
def Maker.new_buy_order (m : Maker) : Except MakerError BtcDaiOrder :=
  match m.mid_market_rate, m.dai_balance with
  | some mid_market_rate, some dai_balance =>
      .ok (BtcDaiOrder.new_buy dai_balance m.dai_reserved_funds
        m.dai_max_sell_amount mid_market_rate.rate m.spread)
  | none, _ => .error (.rateNotAvailable .buy)
  | some _, none => .error (.balanceNotAvailable .dai)

/-- Pair of freshly constructed orders returned by `update_rate`
(maker.rs, struct `PublishOrders`). -/
structure PublishOrders where
  new_sell_order : BtcDaiOrder
  new_buy_order : BtcDaiOrder
deriving DecidableEq, Repr

/-- Function `Maker::update_rate` (maker.rs). If the stored rate equals
the argument, nothing happens; otherwise the stored rate is replaced
first and the two orders are constructed afterwards, so a failing order
construction leaves the replacement in place. The returned state is the
post-call state whatever the outcome. -/
def Maker.update_rate (m : Maker) (mid_market_rate : MidMarketRate) :
    Maker × Except MakerError (Option PublishOrders) :=
  if m.mid_market_rate = some mid_market_rate then
    (m, .ok none)
  else
    let m2 := { m with mid_market_rate := some mid_market_rate }
    match m2.new_sell_order with
    | .error e => (m2, .error e)
    | .ok so =>
      match m2.new_buy_order with
      | .error e => (m2, .error e)
      | .ok bo => (m2, .ok (some { new_sell_order := so, new_buy_order := bo }))

/-- Function `Maker::process_taken_order` (maker.rs): decide whether to
proceed with a taken order, reserving funds and recording the taker on
the accepting path only. The returned state is the post-call state. -/
def Maker.process_taken_order (m : Maker) (order : Order) :
    Maker × Except MakerError TakeRequestDecision :=
  if order.taker ∈ m.ongoing_takers then
    (m, .ok .cannotTradeWithTaker)
  else
    match m.mid_market_rate with
    | some current_mid_market_rate =>
      let current_profitable_rate :=
        m.spread.apply current_mid_market_rate.rate order.inner.position
      let order_rate := orderRate order.inner
      match order.inner.position with
      | .buy =>
        match m.dai_balance with
        | some dai_balance =>
          if order_rate > current_profitable_rate then
            (m, .ok .rateNotProfitable)
          else
            let updated_dai_reserved_funds := m.dai_reserved_funds + order.inner.quote
            if updated_dai_reserved_funds > dai_balance then
              (m, .ok .insufficientFunds)
            else
              ({ m with
                  dai_reserved_funds := updated_dai_reserved_funds
                  ongoing_takers := order.taker :: m.ongoing_takers },
                .ok .goForSwap)
        | none => (m, .error (.balanceNotAvailable .dai))
      | .sell =>
        match m.btc_balance with
        | some btc_balance =>
          if order_rate < current_profitable_rate then
            (m, .ok .rateNotProfitable)
          else
            let updated_btc_reserved_funds :=
              m.btc_reserved_funds + order.inner.base + m.btc_fee
            if updated_btc_reserved_funds > btc_balance then
              (m, .ok .insufficientFunds)
            else
              ({ m with
                  btc_reserved_funds := updated_btc_reserved_funds
                  ongoing_takers := order.taker :: m.ongoing_takers },
                .ok .goForSwap)
        | none => (m, .error (.balanceNotAvailable .btc))
    | none => (m, .error (.rateNotAvailable order.inner.position))

/-- Function `Maker::process_finished_swap` (maker.rs): subtract the freed
amount (plus `btc_fee` on the btc side) from the corresponding reserved
pool and drop the taker from the ongoing set. The subtraction on the
amount types is checked; `none` models the panic on underflow (per the
spec, underflow is a fatal invariant violation, not a recoverable
error). -/
def Maker.process_finished_swap (m : Maker) (free : Free) (taker : ℕ) :
    Option Maker :=
  match free with
  | .dai amount =>
    if amount ≤ m.dai_reserved_funds then
      some { m with
        dai_reserved_funds := m.dai_reserved_funds - amount
        ongoing_takers := m.ongoing_takers.erase taker }
    else
      none
  | .btc amount =>
    if amount + m.btc_fee ≤ m.btc_reserved_funds then
      some { m with
        btc_reserved_funds := m.btc_reserved_funds - (amount + m.btc_fee)
        ongoing_takers := m.ongoing_takers.erase taker }
    else
      none

/-! ## Bob's hbit->herc20 protocol (src/nectar/src/swap/comit/hbit_herc20.rs) -/

/-- Event of the bitcoin HTLC being funded (hbit.rs, struct `Funded`):
asset amount in satoshi and an abstract outpoint location. -/
structure HbitFunded where
  asset : ℕ
  location : ℕ
deriving DecidableEq, Repr

/-- Event of the herc20 HTLC contract being deployed; the contract
location is abstracted to a natural. -/
structure Herc20Deployed where
  location : ℕ
deriving DecidableEq, Repr

/-- Event of the herc20 HTLC being redeemed, carrying the revealed
32-byte secret (abstracted to a natural). -/
structure Herc20Redeemed where
  secret : ℕ
deriving DecidableEq, Repr

/-- Event of the hbit HTLC being redeemed. -/
structure HbitRedeemed where
  transaction : ℕ
deriving DecidableEq, Repr

/-- Failure classification attached by the protocol runs
(`SwapFailedNoRefund` and `SwapFailedShouldRefund(stake)` of
swap/comit/mod.rs); for Bob's hbit->herc20 run the stake is the deployed
herc20 HTLC. -/
inductive SwapFailure
  | swapFailedNoRefund
  | swapFailedShouldRefund (stake : Herc20Deployed)
deriving DecidableEq, Repr

/-- Function `hbit_herc20_bob` (hbit_herc20.rs): Bob's linear protocol
run. Each awaited step is embedded as an injected outcome (`none` means
the step failed); later steps receive the values produced by earlier
ones, exactly as in the source. The result carries the failure
classification the source attaches with `context` at the failing step. -/
def hbitHerc20Bob
    (watch_for_funded : Option HbitFunded)
    (execute_deploy : Option Herc20Deployed)
    (execute_fund : Herc20Deployed → Option Unit)
    (watch_for_redeemed : Herc20Deployed → Option Herc20Redeemed)
    (execute_redeem : HbitFunded → ℕ → Option HbitRedeemed) :
    Except SwapFailure Unit :=
  match watch_for_funded with
  | none => .error .swapFailedNoRefund
  | some hbit_funded =>
    match execute_deploy with
    | none => .error .swapFailedNoRefund
    | some herc20_deployed =>
      match execute_fund herc20_deployed with
      | none => .error .swapFailedNoRefund
      | some _ =>
        match watch_for_redeemed herc20_deployed with
        | none => .error (.swapFailedShouldRefund herc20_deployed)
        | some herc20_redeemed =>
          match execute_redeem hbit_funded herc20_redeemed.secret with
          | none => .error .swapFailedNoRefund
          | some _ => .ok ()

/-- Modelled from the spec: `herc20::refund_if_necessary` (the herc20
module of nectar is not part of the sources). On `Ok` nothing happens, on
`Err(NoRefund)` the error is surfaced without a refund, on
`Err(ShouldRefund(stake))` the stake's HTLC is refunded once its timelock
permits. The function returns the stake that gets refunded, if any. -/
def refundIfNecessaryAction (swap_result : Except SwapFailure Unit) :
    Option Herc20Deployed :=
  match swap_result with
  | .error (.swapFailedShouldRefund stake) => some stake
  | _ => none

/-! ## Ethereum chain watcher (src/cnd/src/btsieve/ethereum/mod.rs) -/

/-- An Ethereum transaction as seen by the watcher: its hash plus an
abstract payload standing for the remaining fields the pattern may
inspect. -/
structure EthTransaction where
  hash : ℕ
  payload : ℕ
deriving DecidableEq, Repr

/-- A transaction receipt, abstracted to a natural (the pattern treats it
opaquely). -/
abbrev EthReceipt := ℕ

/-- An Ethereum block: the list of its transactions (the watcher iterates
over `block.transactions`). -/
structure EthBlock where
  transactions : List EthTransaction
deriving DecidableEq, Repr

/-- Modelled from the spec: an Ethereum `TransactionPattern`
(transaction_pattern.rs is not part of the sources), embedded by its two
observable predicates: the block-level bloom-filter short-circuit
`can_skip_block` and the per-transaction match predicate. -/
structure TransactionPattern where
  can_skip_block : EthBlock → Bool
  txMatches : EthTransaction → EthReceipt → Bool

/-- Inner per-transaction loop of one iteration of
`matching_transaction`: walk the block's transactions in order, fetch
each receipt through the connector (`receipts`), skip a transaction whose
receipt fetch returns `None` or errors, and return the first transaction
whose receipt matches the pattern. -/
def findMatchInBlock (pattern : TransactionPattern)
    (receipts : ℕ → Except Unit (Option EthReceipt)) :
    List EthTransaction → Option (EthTransaction × EthReceipt)
  | [] => none
  | transaction :: rest =>
    match receipts transaction.hash with
    | .ok (some receipt) =>
      if pattern.txMatches transaction receipt then
        some (transaction, receipt)
      else
        findMatchInBlock pattern receipts rest
    | .ok none => findMatchInBlock pattern receipts rest
    | .error _ => findMatchInBlock pattern receipts rest

/-- One iteration of the polling loop of `matching_transaction`
(btsieve/ethereum/mod.rs). The one-second delay at the top of the loop
performs no state change (a failed sleep is logged and ignored), so the
iteration is determined by the connector's answers: the `latest_block`
fetch result and the receipt fetch results. `none` means the iteration
yields nothing and the loop continues. -/
def matchingTransactionIteration (pattern : TransactionPattern)
    (latest_block : Except Unit (Option EthBlock))
    (receipts : ℕ → Except Unit (Option EthReceipt)) :
    Option (EthTransaction × EthReceipt) :=
  match latest_block with
  | .error _ => none
  | .ok none => none
  | .ok (some block) =>
    if pattern.can_skip_block block then
      none
    else
      findMatchInBlock pattern receipts block.transactions

/-! ## Ethereum wallet (src/src/ethereum/wallet.rs) -/

/-- A request the wallet issues to its geth client or to the clock,
in order, on the successful execution path of one sending operation. -/
inductive GethRequest
  | assertChain (expected : ℕ)
  | getTransactionCount
  | gasPrice
  | estimateGas
  | sendRawTransaction
  | sleepMs (ms : ℕ)
  | getTransactionReceipt
deriving DecidableEq, Repr

/-- Requests issued by `Wallet::deploy_contract` (wallet.rs) on its
successful path: assert the chain id, fetch the nonce, fetch the gas
price, broadcast the signed transaction, then sleep 2000 ms and return
the hash. -/
def deployContractRequests (chain_id : ℕ) : List GethRequest :=
  [.assertChain chain_id, .getTransactionCount, .gasPrice,
    .sendRawTransaction, .sleepMs 2000]

/-- Requests issued by `Wallet::send_transaction` (wallet.rs) on its
successful path; when no gas limit is supplied the wallet asks the node
for an estimate before broadcasting. -/
def sendTransactionRequests (chain_id : ℕ) (gas_limit : Option ℕ) :
    List GethRequest :=
  [.assertChain chain_id, .getTransactionCount, .gasPrice]
    ++ (match gas_limit with
        | some _ => []
        | none => [.estimateGas])
    ++ [.sendRawTransaction, .sleepMs 2000]

/-- Requests issued by `Wallet::transfer_dai` (wallet.rs) on its
successful path. -/
def transferDaiRequests (chain_id : ℕ) : List GethRequest :=
  [.assertChain chain_id, .getTransactionCount, .gasPrice,
    .sendRawTransaction, .sleepMs 2000]

/-- Requests issued by `Wallet::call_contract` (wallet.rs) on its
successful path. -/
def callContractRequests (chain_id : ℕ) : List GethRequest :=
  [.assertChain chain_id, .getTransactionCount, .gasPrice,
    .sendRawTransaction, .sleepMs 2000]

/-- Whether a request trace contains a receipt poll, i.e. whether the
operation checks that the broadcast transaction has entered a block
before returning. -/
def waitsForReceipt (trace : List GethRequest) : Prop :=
  GethRequest.getTransactionReceipt ∈ trace

instance (trace : List GethRequest) : Decidable (waitsForReceipt trace) := by
  unfold waitsForReceipt
  infer_instance

/-! ## Helper lemmas about `process_taken_order` -/

/-- Characterisation of the state after an accepting `process_taken_order`
call: on `GoForSwap` the state committed the reservation of the order's
side and recorded the taker; every other outcome leaves the state
untouched. -/
theorem Maker.process_taken_order_state_char (m : Maker) (order : Order) :
    ((m.process_taken_order order).2 = Except.ok TakeRequestDecision.goForSwap →
      (order.inner.position = Position.sell ∧
        (m.process_taken_order order).1 = { m with
          btc_reserved_funds := m.btc_reserved_funds + order.inner.base + m.btc_fee
          ongoing_takers := order.taker :: m.ongoing_takers }) ∨
      (order.inner.position = Position.buy ∧
        (m.process_taken_order order).1 = { m with
          dai_reserved_funds := m.dai_reserved_funds + order.inner.quote
          ongoing_takers := order.taker :: m.ongoing_takers })) ∧
    ((m.process_taken_order order).2 ≠ Except.ok TakeRequestDecision.goForSwap →
      (m.process_taken_order order).1 = m) := by
  obtain ⟨⟨pos, base, quote⟩, taker⟩ := order
  unfold Maker.process_taken_order
  by_cases hmem : taker ∈ m.ongoing_takers
  · simp [hmem]
  · cases hmr : m.mid_market_rate with
    | none => simp [hmem, hmr]
    | some mmr =>
      cases pos with
      | buy =>
        cases hdb : m.dai_balance with
        | none => simp [hmem, hmr, hdb]
        | some db =>
          simp only [hmem, if_false, hmr, hdb]
          split_ifs with h1 h2 <;> simp
      | sell =>
        cases hbb : m.btc_balance with
        | none => simp [hmem, hmr, hbb]
        | some bb =>
          simp only [hmem, if_false, hmr, hbb]
          split_ifs with h1 h2 <;> simp

/-- C2: in a maker state where the taker has no ongoing trade, the mid
market rate is present and the balance on the order's side is present,
`process_taken_order` returns `RateNotProfitable` exactly when the order
is a buy whose rate exceeds `mid × (1 − s)` or a sell whose rate is below
`mid × (1 + s)`, where `s = spread_bps / 10000` and the comparisons are on
exact rationals. -/
theorem process_taken_order_rateNotProfitable_iff
    (m : Maker) (order : Order) (mmr : MidMarketRate)
    (hTaker : order.taker ∉ m.ongoing_takers)
    (hRate : m.mid_market_rate = some mmr)
    (hBuyBal : order.inner.position = Position.buy → m.dai_balance.isSome)
    (hSellBal : order.inner.position = Position.sell → m.btc_balance.isSome) :
    (m.process_taken_order order).2 = Except.ok TakeRequestDecision.rateNotProfitable ↔
      ((order.inner.position = Position.buy ∧
        orderRate order.inner > mmr.rate * (1 - (m.spread.bps : ℚ) / 10000)) ∨
       (order.inner.position = Position.sell ∧
        orderRate order.inner < mmr.rate * (1 + (m.spread.bps : ℚ) / 10000))) := by
  obtain ⟨⟨pos, base, quote⟩, taker⟩ := order
  unfold Maker.process_taken_order
  cases pos with
  | buy =>
    obtain ⟨db, hdb⟩ := Option.isSome_iff_exists.mp (hBuyBal rfl)
    simp only [hTaker, if_false, hRate, hdb, Spread.apply]
    split_ifs with h1 h2 <;> simp_all
  | sell =>
    obtain ⟨bb, hbb⟩ := Option.isSome_iff_exists.mp (hSellBal rfl)
    simp only [hTaker, if_false, hRate, hbb, Spread.apply]
    split_ifs with h1 h2 <;> simp_all

/-- Witness for the C2 theorem: a buy order at rate 3 against a mid
market rate of 2 with zero spread is rejected as not profitable. -/
theorem process_taken_order_rateNotProfitable_iff_witness :
    ((Maker.new 10 10 0 none none ⟨2⟩ ⟨0⟩).process_taken_order
      ⟨⟨Position.buy, 1, 3⟩, 0⟩).2 = Except.ok TakeRequestDecision.rateNotProfitable := by
  exact (process_taken_order_rateNotProfitable_iff
    (Maker.new 10 10 0 none none ⟨2⟩ ⟨0⟩) ⟨⟨Position.buy, 1, 3⟩, 0⟩ ⟨2⟩
    (by decide) (by decide) (fun _ => by decide) (fun h => by cases h)).mpr
    (Or.inl ⟨rfl, by norm_num [orderRate, Maker.new]⟩)

/-- C3: a `GoForSwap` acceptance followed by `process_finished_swap`
freeing exactly the order's amount on the order's side (the base amount
for a sell, the quote amount for a buy) restores both reserved pools to
their pre-acceptance values; on the btc side the fee added on reservation
is added back on release. -/
theorem goForSwap_then_finished_swap_restores (m : Maker) (order : Order)
    (h : (m.process_taken_order order).2 = Except.ok TakeRequestDecision.goForSwap) :
    ∃ m2 : Maker,
      (m.process_taken_order order).1.process_finished_swap
        (match order.inner.position with
         | Position.sell => Free.btc order.inner.base
         | Position.buy => Free.dai order.inner.quote) order.taker = some m2 ∧
      m2.btc_reserved_funds = m.btc_reserved_funds ∧
      m2.dai_reserved_funds = m.dai_reserved_funds := by
  rcases (Maker.process_taken_order_state_char m order).1 h with
    ⟨hpos, hstate⟩ | ⟨hpos, hstate⟩
  · simp only [hpos, hstate, Maker.process_finished_swap]
    rw [if_pos (by omega)]
    exact ⟨_, rfl, by simp only []; omega, rfl⟩
  · simp only [hpos, hstate, Maker.process_finished_swap]
    rw [if_pos (by omega)]
    exact ⟨_, rfl, rfl, by simp only []; omega⟩

/-- Witness for the C3 theorem: accepting a sell of 2 satoshi with fee 1
and then finishing that swap returns the btc reserved funds to zero. -/
theorem goForSwap_then_finished_swap_restores_witness :
    ∃ m2 : Comit.Maker,
      ((Maker.new 10 10 1 none none ⟨0⟩ ⟨0⟩).process_taken_order
        ⟨⟨Position.sell, 2, 0⟩, 7⟩).1.process_finished_swap (Free.btc 2) 7 = some m2 ∧
      m2.btc_reserved_funds = 0 ∧
      m2.dai_reserved_funds = 0 := by
  have h := goForSwap_then_finished_swap_restores
    (Maker.new 10 10 1 none none ⟨0⟩ ⟨0⟩) ⟨⟨Position.sell, 2, 0⟩, 7⟩
    (by simp [Maker.process_taken_order, Maker.new, orderRate, Spread.apply])
  simpa [Maker.new] using h

/-- C4: for a taken sell order with the btc balance present (the taker
free, the rate present and the order profitable so that the reservation
step is reached), the new reservation is
`btc_reserved_funds + order.base + btc_fee`; the order is rejected with
`InsufficientFunds`, the state unchanged, exactly when that sum exceeds
the btc balance, and otherwise the sum is committed. Concretely, a maker
with a btc balance of 3.0 BTC, a btc fee of 1.0 BTC and nothing reserved
accepts a profitable sell of 1.5 BTC with `GoForSwap` and ends up with
2.5 BTC reserved. -/
theorem process_taken_order_sell_reservation
    (m : Maker) (order : Order) (mmr : MidMarketRate) (btc_balance : ℕ)
    (hTaker : order.taker ∉ m.ongoing_takers)
    (hRate : m.mid_market_rate = some mmr)
    (hBal : m.btc_balance = some btc_balance)
    (hPos : order.inner.position = Position.sell)
    (hProf : ¬ orderRate order.inner < m.spread.apply mmr.rate Position.sell) :
    ((m.btc_reserved_funds + order.inner.base + m.btc_fee > btc_balance →
        m.process_taken_order order = (m, Except.ok TakeRequestDecision.insufficientFunds)) ∧
      (m.btc_reserved_funds + order.inner.base + m.btc_fee ≤ btc_balance →
        (m.process_taken_order order).2 = Except.ok TakeRequestDecision.goForSwap ∧
        (m.process_taken_order order).1.btc_reserved_funds =
          m.btc_reserved_funds + order.inner.base + m.btc_fee)) ∧
    ((Maker.new 300000000 0 100000000 none none ⟨0⟩ ⟨0⟩).process_taken_order
        ⟨⟨Position.sell, 150000000, 0⟩, 0⟩).2 = Except.ok TakeRequestDecision.goForSwap ∧
    ((Maker.new 300000000 0 100000000 none none ⟨0⟩ ⟨0⟩).process_taken_order
        ⟨⟨Position.sell, 150000000, 0⟩, 0⟩).1.btc_reserved_funds = 250000000 := by
  refine ⟨?_,
    by simp [Maker.process_taken_order, Maker.new, orderRate, Spread.apply],
    by simp [Maker.process_taken_order, Maker.new, orderRate, Spread.apply]⟩
  obtain ⟨⟨pos, base, quote⟩, taker⟩ := order
  simp only at hPos
  subst hPos
  unfold Maker.process_taken_order
  simp only [hTaker, if_false, hRate, hBal]
  rw [if_neg hProf]
  constructor
  · intro hover
    rw [if_pos (by simpa using hover)]
  · intro hunder
    rw [if_neg (by simpa using Nat.not_lt.mpr hunder)]
    exact ⟨rfl, rfl⟩

/-- Witness for the C4 theorem: the maker of the concrete scenario indeed
rejects nothing and commits 2.5 BTC of reserved funds. -/
theorem process_taken_order_sell_reservation_witness :
    ((Maker.new 300000000 0 100000000 none none ⟨0⟩ ⟨0⟩).process_taken_order
        ⟨⟨Position.sell, 150000000, 0⟩, 0⟩).2 = Except.ok TakeRequestDecision.goForSwap ∧
    ((Maker.new 300000000 0 100000000 none none ⟨0⟩ ⟨0⟩).process_taken_order
        ⟨⟨Position.sell, 150000000, 0⟩, 0⟩).1.btc_reserved_funds = 250000000 := by
  exact (process_taken_order_sell_reservation
    (Maker.new 300000000 0 100000000 none none ⟨0⟩ ⟨0⟩)
    ⟨⟨Position.sell, 150000000, 0⟩, 0⟩ ⟨0⟩ 300000000
    (by decide) (by rfl) (by rfl) (by rfl)
    (by norm_num [orderRate, Spread.apply, Maker.new])).1.2 (by norm_num [Maker.new])

/-- Rejection of a busy taker (maker.rs, first check of
`process_taken_order`): when the taker is a member of `ongoing_takers`
the call returns `CannotTradeWithTaker` and the state unchanged. -/
theorem Maker.process_taken_order_of_mem (m : Maker) (order : Order)
    (hmem : order.taker ∈ m.ongoing_takers) :
    m.process_taken_order order = (m, Except.ok TakeRequestDecision.cannotTradeWithTaker) := by
  unfold Maker.process_taken_order
  rw [if_pos hmem]

/-- C5: a taker with an ongoing trade is rejected with
`CannotTradeWithTaker` before any other check and with the state
unchanged, even when the rate is absent or funds are insufficient; a
taker is added to `ongoing_takers` exactly on the `GoForSwap` path; and
after an acceptance the same taker's next order is rejected. -/
theorem process_taken_order_taker_uniqueness (m : Maker) (order : Order) :
    (order.taker ∈ m.ongoing_takers →
      m.process_taken_order order = (m, Except.ok TakeRequestDecision.cannotTradeWithTaker)) ∧
    ((m.process_taken_order order).2 = Except.ok TakeRequestDecision.goForSwap →
      (m.process_taken_order order).1.ongoing_takers = order.taker :: m.ongoing_takers) ∧
    ((m.process_taken_order order).2 ≠ Except.ok TakeRequestDecision.goForSwap →
      (m.process_taken_order order).1.ongoing_takers = m.ongoing_takers) ∧
    ((m.process_taken_order order).2 = Except.ok TakeRequestDecision.goForSwap →
      ∀ order2 : Order, order2.taker = order.taker →
        ((m.process_taken_order order).1.process_taken_order order2).2 =
          Except.ok TakeRequestDecision.cannotTradeWithTaker) := by
  have hchar := Maker.process_taken_order_state_char m order
  refine ⟨Maker.process_taken_order_of_mem m order, ?_, ?_, ?_⟩
  · intro h
    rcases hchar.1 h with ⟨_, hstate⟩ | ⟨_, hstate⟩ <;> rw [hstate]
  · intro h
    rw [hchar.2 h]
  · intro h order2 htaker
    have hmem : order2.taker ∈ (m.process_taken_order order).1.ongoing_takers := by
      rcases hchar.1 h with ⟨_, hstate⟩ | ⟨_, hstate⟩ <;>
        simp [hstate, htaker]
    rw [Maker.process_taken_order_of_mem _ order2 hmem]

/-- Witness for the C5 theorem: a taker already recorded as ongoing is
rejected even though the mid market rate is absent. -/
theorem process_taken_order_taker_uniqueness_witness :
    ({ btc_balance := none, dai_balance := none, btc_fee := 0,
        btc_reserved_funds := 0, dai_reserved_funds := 0,
        btc_max_sell_amount := none, dai_max_sell_amount := none,
        mid_market_rate := none, spread := ⟨0⟩,
        ongoing_takers := [7] } : Maker).process_taken_order
      ⟨⟨Position.sell, 1, 1⟩, 7⟩ =
      (({ btc_balance := none, dai_balance := none, btc_fee := 0,
          btc_reserved_funds := 0, dai_reserved_funds := 0,
          btc_max_sell_amount := none, dai_max_sell_amount := none,
          mid_market_rate := none, spread := ⟨0⟩,
          ongoing_takers := [7] } : Maker), Except.ok TakeRequestDecision.cannotTradeWithTaker) := by
  exact (process_taken_order_taker_uniqueness _ ⟨⟨Position.sell, 1, 1⟩, 7⟩).1 (by decide)

/-- C6: whenever `process_taken_order` answers `CannotTradeWithTaker`,
`RateNotProfitable` or `InsufficientFunds`, or fails with one of the
maker errors, the entire maker state is unchanged; reserved funds and the
ongoing-taker set change only on the `GoForSwap` path. -/
theorem process_taken_order_no_mutation_unless_goForSwap (m : Maker) (order : Order)
    (h : (m.process_taken_order order).2 = Except.ok TakeRequestDecision.cannotTradeWithTaker ∨
      (m.process_taken_order order).2 = Except.ok TakeRequestDecision.rateNotProfitable ∨
      (m.process_taken_order order).2 = Except.ok TakeRequestDecision.insufficientFunds ∨
      ∃ e : MakerError, (m.process_taken_order order).2 = Except.error e) :
    (m.process_taken_order order).1 = m := by
  refine (Maker.process_taken_order_state_char m order).2 ?_
  rcases h with h | h | h | ⟨e, h⟩ <;> simp [h]

/-- Witness for the C6 theorem: a maker without a rate errors on a taken
order and its state is unchanged. -/
theorem process_taken_order_no_mutation_unless_goForSwap_witness :
    (({ btc_balance := none, dai_balance := none, btc_fee := 0,
        btc_reserved_funds := 3, dai_reserved_funds := 4,
        btc_max_sell_amount := none, dai_max_sell_amount := none,
        mid_market_rate := none, spread := ⟨0⟩,
        ongoing_takers := [] } : Maker).process_taken_order
      ⟨⟨Position.sell, 1, 1⟩, 7⟩).1 =
      { btc_balance := none, dai_balance := none, btc_fee := 0,
        btc_reserved_funds := 3, dai_reserved_funds := 4,
        btc_max_sell_amount := none, dai_max_sell_amount := none,
        mid_market_rate := none, spread := ⟨0⟩,
        ongoing_takers := [] } := by
  exact process_taken_order_no_mutation_unless_goForSwap _ ⟨⟨Position.sell, 1, 1⟩, 7⟩
    (Or.inr (Or.inr (Or.inr ⟨MakerError.rateNotAvailable Position.sell, rfl⟩)))

/-- C7 counterexample: the subtraction of `process_finished_swap` is not
total for arbitrary freed amounts. In the reachable state produced by
`Maker::new` (no funds reserved), freeing 1 satoshi underflows the
checked subtraction `btc_reserved_funds - (amount + btc_fee)`, a panic in
the source (`none` in the embedding) rather than a completed call. -/
theorem process_finished_swap_not_total :
    (Maker.new 0 0 0 none none ⟨0⟩ ⟨0⟩).process_finished_swap (Free.btc 1) 0 = none := by
  rfl

/-- C7 (amended): `process_finished_swap` subtracts the freed amount —
plus `btc_fee` on the btc side — from the corresponding reserved pool and
leaves the other pool untouched, and the result stays at or above zero;
the call completes exactly when the subtraction does not underflow, i.e.
when the freed amount (plus `btc_fee` for btc) is at most the
corresponding reserved pool, as is the case for an amount reserved
earlier; beyond that bound the checked subtraction is a fatal underflow,
not a completed call. -/
theorem process_finished_swap_subtracts (m : Maker) (free : Free) (taker : ℕ) :
    (∀ a, free = Free.btc a →
      (((m.process_finished_swap free taker).isSome ↔
          a + m.btc_fee ≤ m.btc_reserved_funds) ∧
        ∀ m2, m.process_finished_swap free taker = some m2 →
          m2.btc_reserved_funds = m.btc_reserved_funds - (a + m.btc_fee) ∧
          m2.dai_reserved_funds = m.dai_reserved_funds)) ∧
    (∀ a, free = Free.dai a →
      (((m.process_finished_swap free taker).isSome ↔
          a ≤ m.dai_reserved_funds) ∧
        ∀ m2, m.process_finished_swap free taker = some m2 →
          m2.dai_reserved_funds = m.dai_reserved_funds - a ∧
          m2.btc_reserved_funds = m.btc_reserved_funds)) := by
  constructor
  · rintro a rfl
    simp only [Maker.process_finished_swap]
    split_ifs with h
    · exact ⟨by simpa using h, fun m2 hm2 => by
        cases Option.some.injEq .. ▸ hm2 <;> simp_all⟩
    · exact ⟨by simpa using h, fun m2 hm2 => by cases hm2⟩
  · rintro a rfl
    simp only [Maker.process_finished_swap]
    split_ifs with h
    · exact ⟨by simpa using h, fun m2 hm2 => by
        cases Option.some.injEq .. ▸ hm2 <;> simp_all⟩
    · exact ⟨by simpa using h, fun m2 hm2 => by cases hm2⟩

/-- Witness for the C7 theorem: freeing 0.5 BTC (50000000 sat) with a fee
of 0.1 BTC (10000000 sat) out of 1.1 BTC reserved leaves 0.5 BTC
reserved, matching the repository test
`free_funds_and_remove_ongoing_taker_when_processing_finished_swap`. -/
theorem process_finished_swap_subtracts_witness :
    ∃ m2 : Maker,
      ({ btc_balance := none, dai_balance := none, btc_fee := 10000000,
          btc_reserved_funds := 110000000, dai_reserved_funds := 0,
          btc_max_sell_amount := none, dai_max_sell_amount := none,
          mid_market_rate := none, spread := ⟨0⟩,
          ongoing_takers := [0] } : Maker).process_finished_swap
        (Free.btc 50000000) 0 = some m2 ∧
      m2.btc_reserved_funds = 50000000 := by
  have h := (process_finished_swap_subtracts
    ({ btc_balance := none, dai_balance := none, btc_fee := 10000000,
        btc_reserved_funds := 110000000, dai_reserved_funds := 0,
        btc_max_sell_amount := none, dai_max_sell_amount := none,
        mid_market_rate := none, spread := ⟨0⟩,
        ongoing_takers := [0] } : Maker) (Free.btc 50000000) 0).1 50000000 rfl
  obtain ⟨m2, hm2⟩ := Option.isSome_iff_exists.mp (h.1.mpr (by norm_num))
  exact ⟨m2, hm2, ((h.2 m2 hm2).1).trans (by norm_num)⟩

/-- C10: `update_rate` is not atomic on error. Whenever the stored mid
market rate differs from the argument (or is absent), the rate field is
replaced before the two orders are constructed, so the returned state is
exactly the old state with the new rate — even when the call returns an
error because order construction failed. -/
theorem update_rate_not_atomic (m : Maker) (mid_market_rate : MidMarketRate)
    (h : m.mid_market_rate ≠ some mid_market_rate) :
    (m.update_rate mid_market_rate).1 =
      { m with mid_market_rate := some mid_market_rate } ∧
    (∀ e, (m.update_rate mid_market_rate).2 = Except.error e →
      (m.update_rate mid_market_rate).1.mid_market_rate = some mid_market_rate) := by
  have hstate : (m.update_rate mid_market_rate).1 =
      { m with mid_market_rate := some mid_market_rate } := by
    unfold Maker.update_rate
    rw [if_neg h]
    dsimp only
    split
    · rfl
    · split <;> rfl
  exact ⟨hstate, fun e _ => by rw [hstate]⟩

/-- Witness for the C10 theorem: a maker with no balances errors with
`BalanceNotAvailable` on `update_rate`, yet the stored rate has been
replaced by the new value. -/
theorem update_rate_not_atomic_witness :
    (({ btc_balance := none, dai_balance := none, btc_fee := 0,
        btc_reserved_funds := 0, dai_reserved_funds := 0,
        btc_max_sell_amount := none, dai_max_sell_amount := none,
        mid_market_rate := none, spread := ⟨0⟩,
        ongoing_takers := [] } : Maker).update_rate ⟨2⟩).2 =
      Except.error (MakerError.balanceNotAvailable Symbol.btc) ∧
    (({ btc_balance := none, dai_balance := none, btc_fee := 0,
        btc_reserved_funds := 0, dai_reserved_funds := 0,
        btc_max_sell_amount := none, dai_max_sell_amount := none,
        mid_market_rate := none, spread := ⟨0⟩,
        ongoing_takers := [] } : Maker).update_rate ⟨2⟩).1.mid_market_rate = some ⟨2⟩ := by
  refine ⟨by rfl, ?_⟩
  exact (update_rate_not_atomic _ ⟨2⟩ (by simp)).2
    (MakerError.balanceNotAvailable Symbol.btc) (by rfl)

/-- C1 counterexample: a failure at step β₅ (redeeming hbit with the
extracted secret) is classified `SwapFailedNoRefund` by
`hbit_herc20_bob`, not `ShouldRefund`, so `refund_if_necessary` attempts
no herc20 refund. All earlier steps succeed; only the final hbit redeem
fails. -/
theorem hbitHerc20Bob_beta5_counterexample :
    hbitHerc20Bob (some ⟨100, 1⟩) (some ⟨2⟩) (fun _ => some ())
      (fun _ => some ⟨42⟩) (fun _ _ => none) =
      Except.error SwapFailure.swapFailedNoRefund ∧
    refundIfNecessaryAction
      (hbitHerc20Bob (some ⟨100, 1⟩) (some ⟨2⟩) (fun _ => some ())
        (fun _ => some ⟨42⟩) (fun _ _ => none)) = none := by
  exact ⟨rfl, rfl⟩

/-- C1 (amended): in `hbit_herc20_bob` only a failure at step β₄
(watching herc20 for `Redeemed`) is classified
`ShouldRefund(herc20_deployed)`, making `refund_if_necessary` refund the
herc20 HTLC after Bob's herc20 expiry; failures at β₁–β₃ and also at β₅
(redeeming hbit with the extracted secret) are classified `NoRefund` and
trigger no refund. `ShouldRefund` arises from no step other than β₄. -/
theorem hbitHerc20Bob_classification
    (f : HbitFunded) (d : Herc20Deployed) (rd : Herc20Redeemed)
    (ed : Option Herc20Deployed)
    (ef : Herc20Deployed → Option Unit)
    (wr : Herc20Deployed → Option Herc20Redeemed)
    (er : HbitFunded → ℕ → Option HbitRedeemed) :
    (hbitHerc20Bob none ed ef wr er = Except.error SwapFailure.swapFailedNoRefund) ∧
    (hbitHerc20Bob (some f) none ef wr er =
      Except.error SwapFailure.swapFailedNoRefund) ∧
    (ef d = none → hbitHerc20Bob (some f) (some d) ef wr er =
      Except.error SwapFailure.swapFailedNoRefund) ∧
    (ef d = some () → wr d = none →
      hbitHerc20Bob (some f) (some d) ef wr er =
        Except.error (SwapFailure.swapFailedShouldRefund d) ∧
      refundIfNecessaryAction (hbitHerc20Bob (some f) (some d) ef wr er) = some d) ∧
    (ef d = some () → wr d = some rd → er f rd.secret = none →
      hbitHerc20Bob (some f) (some d) ef wr er =
        Except.error SwapFailure.swapFailedNoRefund ∧
      refundIfNecessaryAction (hbitHerc20Bob (some f) (some d) ef wr er) = none) ∧
    (∀ stake, hbitHerc20Bob (some f) (some d) ef wr er =
        Except.error (SwapFailure.swapFailedShouldRefund stake) →
      stake = d ∧ ef d = some () ∧ wr d = none) := by
  refine ⟨rfl, rfl, ?_, ?_, ?_, ?_⟩
  · intro h3
    simp [hbitHerc20Bob, h3]
  · intro h3 h4
    simp [hbitHerc20Bob, refundIfNecessaryAction, h3, h4]
  · intro h3 h4 h5
    simp [hbitHerc20Bob, refundIfNecessaryAction, h3, h4, h5]
  · intro stake h
    simp only [hbitHerc20Bob] at h
    cases h3 : ef d with
    | none => simp only [h3] at h; simp at h
    | some u =>
      simp only [h3] at h
      cases h4 : wr d with
      | none =>
        simp only [h4, Except.error.injEq,
          SwapFailure.swapFailedShouldRefund.injEq] at h
        exact ⟨h.symm, rfl, rfl⟩
      | some rd2 =>
        simp only [h4] at h
        cases h5 : er f rd2.secret with
        | none => simp only [h5] at h; simp at h
        | some _ => simp only [h5] at h; simp at h

/-- Witness for the C1 theorem: with steps β₁–β₃ succeeding and β₄
failing, Bob's run fails as `ShouldRefund` with the deployed herc20 HTLC
as the stake and the refund policy refunds exactly that stake. -/
theorem hbitHerc20Bob_classification_witness :
    hbitHerc20Bob (some ⟨100, 1⟩) (some ⟨2⟩) (fun _ => some ())
      (fun _ => none) (fun _ _ => some ⟨9⟩) =
      Except.error (SwapFailure.swapFailedShouldRefund ⟨2⟩) ∧
    refundIfNecessaryAction
      (hbitHerc20Bob (some ⟨100, 1⟩) (some ⟨2⟩) (fun _ => some ())
        (fun _ => none) (fun _ _ => some ⟨9⟩)) = some ⟨2⟩ := by
  exact (hbitHerc20Bob_classification ⟨100, 1⟩ ⟨2⟩ ⟨0⟩ (some ⟨2⟩)
    (fun _ => some ()) (fun _ => none) (fun _ _ => some ⟨9⟩)).2.2.2.1 rfl rfl

/-! ## Watcher and wallet theorems -/

/-- Soundness of a yielded match of `findMatchInBlock`: the transaction
is in the scanned list, its receipt fetch succeeded with exactly the
yielded receipt, and the pattern matches. -/
theorem findMatchInBlock_some_sound (pattern : TransactionPattern)
    (receipts : ℕ → Except Unit (Option EthReceipt)) :
    ∀ txs tx r, findMatchInBlock pattern receipts txs = some (tx, r) →
      pattern.txMatches tx r = true ∧ tx ∈ txs ∧ receipts tx.hash = .ok (some r)
  | [], tx, r, h => by cases h
  | t :: rest, tx, r, h => by
    unfold findMatchInBlock at h
    cases hr : receipts t.hash with
    | error e =>
      simp only [hr] at h
      have := findMatchInBlock_some_sound pattern receipts rest tx r h
      exact ⟨this.1, List.mem_cons_of_mem _ this.2.1, this.2.2⟩
    | ok o =>
      cases o with
      | none =>
        simp only [hr] at h
        have := findMatchInBlock_some_sound pattern receipts rest tx r h
        exact ⟨this.1, List.mem_cons_of_mem _ this.2.1, this.2.2⟩
      | some receipt =>
        simp only [hr] at h
        by_cases hm : pattern.txMatches t receipt
        · rw [if_pos hm] at h
          obtain ⟨rfl, rfl⟩ := Prod.mk.injEq .. ▸ Option.some.injEq .. ▸ h
          exact ⟨hm, List.mem_cons_self .., hr⟩
        · rw [if_neg hm] at h
          have := findMatchInBlock_some_sound pattern receipts rest tx r h
          exact ⟨this.1, List.mem_cons_of_mem _ this.2.1, this.2.2⟩

/-- Completeness side of `findMatchInBlock`: it yields nothing exactly
when no transaction of the list has a successfully fetched receipt that
matches the pattern. -/
theorem findMatchInBlock_none_iff (pattern : TransactionPattern)
    (receipts : ℕ → Except Unit (Option EthReceipt)) :
    ∀ txs, findMatchInBlock pattern receipts txs = none ↔
      ∀ tx ∈ txs, ∀ r, receipts tx.hash = .ok (some r) →
        pattern.txMatches tx r = false
  | [] => by simp [findMatchInBlock]
  | t :: rest => by
    unfold findMatchInBlock
    cases hr : receipts t.hash with
    | error e =>
      dsimp only
      rw [findMatchInBlock_none_iff pattern receipts rest]
      constructor
      · intro hrest tx htx r hrcpt
        rcases List.mem_cons.mp htx with rfl | htx
        · rw [hr] at hrcpt; cases hrcpt
        · exact hrest tx htx r hrcpt
      · intro hall tx htx r hrcpt
        exact hall tx (List.mem_cons_of_mem _ htx) r hrcpt
    | ok o =>
      cases o with
      | none =>
        dsimp only
        rw [findMatchInBlock_none_iff pattern receipts rest]
        constructor
        · intro hrest tx htx r hrcpt
          rcases List.mem_cons.mp htx with rfl | htx
          · rw [hr] at hrcpt
            cases hrcpt
          · exact hrest tx htx r hrcpt
        · intro hall tx htx r hrcpt
          exact hall tx (List.mem_cons_of_mem _ htx) r hrcpt
      | some receipt =>
        dsimp only
        by_cases hm : pattern.txMatches t receipt
        · rw [if_pos hm]
          constructor
          · intro h; cases h
          · intro hall
            have := hall t (List.mem_cons_self ..) receipt hr
            rw [hm] at this
            cases this
        · rw [if_neg hm]
          rw [findMatchInBlock_none_iff pattern receipts rest]
          constructor
          · intro hrest tx htx r hrcpt
            rcases List.mem_cons.mp htx with rfl | htx
            · rw [hr] at hrcpt
              obtain rfl := Option.some.injEq .. ▸ Except.ok.injEq .. ▸ hrcpt
              exact Bool.not_eq_true _ ▸ hm
            · exact hrest tx htx r hrcpt
          · intro hall tx htx r hrcpt
            exact hall tx (List.mem_cons_of_mem _ htx) r hrcpt

/-- C8: one iteration of the `matching_transaction` polling loop yields
nothing when `latest_block` errors or returns `None` or when the pattern
can skip the whole block; a yielded pair comes from a transaction of the
latest block whose receipt fetch succeeded and satisfies the pattern (so
every emitted pair matches the pattern); and, when the block is not
skipped, the iteration yields nothing exactly when no transaction with an
available receipt matches — transactions whose receipt fetch fails are
skipped individually. -/
theorem matchingTransactionIteration_spec (pattern : TransactionPattern)
    (receipts : ℕ → Except Unit (Option EthReceipt)) :
    (matchingTransactionIteration pattern (.error ()) receipts = none) ∧
    (matchingTransactionIteration pattern (.ok none) receipts = none) ∧
    (∀ block, pattern.can_skip_block block = true →
      matchingTransactionIteration pattern (.ok (some block)) receipts = none) ∧
    (∀ block tx r,
      matchingTransactionIteration pattern (.ok (some block)) receipts = some (tx, r) →
      pattern.txMatches tx r = true ∧ tx ∈ block.transactions ∧
        receipts tx.hash = .ok (some r) ∧ pattern.can_skip_block block = false) ∧
    (∀ block, pattern.can_skip_block block = false →
      (matchingTransactionIteration pattern (.ok (some block)) receipts = none ↔
        ∀ tx ∈ block.transactions, ∀ r, receipts tx.hash = .ok (some r) →
          pattern.txMatches tx r = false)) := by
  refine ⟨rfl, rfl, ?_, ?_, ?_⟩
  · intro block hskip
    simp [matchingTransactionIteration, hskip]
  · intro block tx r h
    unfold matchingTransactionIteration at h
    dsimp only at h
    by_cases hskip : pattern.can_skip_block block
    · rw [if_pos hskip] at h
      cases h
    · rw [if_neg hskip] at h
      have := findMatchInBlock_some_sound pattern receipts block.transactions tx r h
      exact ⟨this.1, this.2.1, this.2.2, Bool.not_eq_true _ ▸ hskip⟩
  · intro block hskip
    unfold matchingTransactionIteration
    dsimp only
    rw [if_neg (by simp [hskip])]
    exact findMatchInBlock_none_iff pattern receipts block.transactions

/-- Witness for the C8 theorem: a two-transaction block scanned with a
pattern matching transactions whose payload equals their receipt yields
the second transaction, which indeed matches. -/
theorem matchingTransactionIteration_spec_witness :
    matchingTransactionIteration
      ⟨fun _ => false, fun tx r => decide (tx.payload = r)⟩
      (.ok (some ⟨[⟨5, 7⟩, ⟨3, 3⟩]⟩)) (fun h => .ok (some h)) = some (⟨3, 3⟩, 3) ∧
    TransactionPattern.txMatches
      ⟨fun _ => false, fun tx r => decide (tx.payload = r)⟩ ⟨3, 3⟩ 3 = true := by
  refine ⟨rfl, ?_⟩
  exact (matchingTransactionIteration_spec
    ⟨fun _ => false, fun tx r => decide (tx.payload = r)⟩
    (fun h => .ok (some h))).2.2.2.1 ⟨[⟨5, 7⟩, ⟨3, 3⟩]⟩ ⟨3, 3⟩ 3 rfl |>.1

/-- C9 counterexample: none of the wallet's sending operations checks
for the transaction's receipt before returning. Each operation broadcasts
exactly one transaction, yet its request trace contains no
`get_transaction_receipt` call, so success does not imply the receipt is
available, contradicting the claim that every operation waits for the
transaction to enter a block. -/
theorem wallet_does_not_wait_for_receipt :
    ((deployContractRequests 1).count GethRequest.sendRawTransaction = 1 ∧
      ¬ waitsForReceipt (deployContractRequests 1)) ∧
    ((sendTransactionRequests 1 none).count GethRequest.sendRawTransaction = 1 ∧
      ¬ waitsForReceipt (sendTransactionRequests 1 none)) ∧
    ((sendTransactionRequests 1 (some 21000)).count GethRequest.sendRawTransaction = 1 ∧
      ¬ waitsForReceipt (sendTransactionRequests 1 (some 21000))) ∧
    ((transferDaiRequests 1).count GethRequest.sendRawTransaction = 1 ∧
      ¬ waitsForReceipt (transferDaiRequests 1)) ∧
    ((callContractRequests 1).count GethRequest.sendRawTransaction = 1 ∧
      ¬ waitsForReceipt (callContractRequests 1)) := by
  decide

/-- C9 (amended): every sending operation of the Ethereum wallet
(`deploy_contract`, `send_transaction`, `transfer_dai`, `call_contract`)
signs and broadcasts exactly one transaction; after `send_raw_transaction`
it performs a fixed 2000 ms sleep as a stand-in for receipt confirmation
and returns the hash — it never polls `get_transaction_receipt`, so it
does not ensure the transaction has entered a block. -/
theorem wallet_sends_once_then_sleeps (chain_id : ℕ) (gas_limit : Option ℕ) :
    ((deployContractRequests chain_id).count GethRequest.sendRawTransaction = 1 ∧
      ¬ waitsForReceipt (deployContractRequests chain_id) ∧
      (deployContractRequests chain_id).dropWhile
        (fun r => decide (r ≠ GethRequest.sendRawTransaction)) =
        [GethRequest.sendRawTransaction, GethRequest.sleepMs 2000]) ∧
    ((sendTransactionRequests chain_id gas_limit).count GethRequest.sendRawTransaction = 1 ∧
      ¬ waitsForReceipt (sendTransactionRequests chain_id gas_limit) ∧
      (sendTransactionRequests chain_id gas_limit).dropWhile
        (fun r => decide (r ≠ GethRequest.sendRawTransaction)) =
        [GethRequest.sendRawTransaction, GethRequest.sleepMs 2000]) ∧
    ((transferDaiRequests chain_id).count GethRequest.sendRawTransaction = 1 ∧
      ¬ waitsForReceipt (transferDaiRequests chain_id) ∧
      (transferDaiRequests chain_id).dropWhile
        (fun r => decide (r ≠ GethRequest.sendRawTransaction)) =
        [GethRequest.sendRawTransaction, GethRequest.sleepMs 2000]) ∧
    ((callContractRequests chain_id).count GethRequest.sendRawTransaction = 1 ∧
      ¬ waitsForReceipt (callContractRequests chain_id) ∧
      (callContractRequests chain_id).dropWhile
        (fun r => decide (r ≠ GethRequest.sendRawTransaction)) =
        [GethRequest.sendRawTransaction, GethRequest.sleepMs 2000]) := by
  cases gas_limit <;>
    simp [deployContractRequests, sendTransactionRequests, transferDaiRequests,
      callContractRequests, waitsForReceipt, List.count_cons, List.dropWhile]

/-- Witness for the C9 theorem: with a concrete chain id the deploy
operation's trace never polls for a receipt. -/
theorem wallet_sends_once_then_sleeps_witness :
    ¬ waitsForReceipt (deployContractRequests 5) ∧
    (deployContractRequests 5).count GethRequest.sendRawTransaction = 1 := by
  exact ⟨(wallet_sends_once_then_sleeps 5 none).1.2.1,
    (wallet_sends_once_then_sleeps 5 none).1.1⟩

end Comit
